import Mathlib

/-!
Verification of the Remote Session Orchestrator of AFL-andon
(`src/sshOperations.js`, plus the fuller variant shipping the remote
document store).

The development shallowly embeds the JavaScript source:

* `executeCommand` (lines 88-168) is embedded as an explicit event machine
  over `ExecState`: the transport delivers events (connection ready, the
  `exec` callback, stream data/close, connection error, the timeout timer
  firing) and each handler is translated into a state transition.  The
  `settled` flag guarding every `resolve(...)` call is tracked in the state,
  `resolves` counts how many times the promise's `resolve` was invoked.
* The call-level operations (`startServer`, `stopServer`, `restartServer`,
  `getServerStatus`, `getBatchServerStatus`, `getServerLog`, `joinServer`,
  `saveRemoteAflConfig`) are embedded as pure functions.  The result the
  inner `executeCommand` promise resolves with is passed in as an explicit
  oracle of type `ExecResult`; a `Bool` field records whether the remote
  transport was consulted at all.  A JavaScript property access on
  `undefined` (a missing registry entry) raises `TypeError`; fallible
  functions therefore return `Except JsError`.
-/

namespace AFLAndon

/-- The value `executeCommand`'s promise resolves with: either
`{success: true, output, code, signal}` (stream close) or
`{success: false, sshDown: true}` (exec error, connection error, timeout,
or missing registry entry). -/
inductive ExecResult where
  | ok (output : String) (code : Option Nat) (signal : Option String)
  | down
deriving DecidableEq, Repr

/-- Transport events that can be delivered to one `executeCommand` call:
the ssh2 client's `ready` event, the `conn.exec` callback (with or without
an error), stream `data` chunks (stdout and stderr are merged in the
source), the stream `close` event carrying exit code and signal, the
client's `error` event, and the `setTimeout` timer firing. -/
inductive Event where
  | ready
  | execCb (err : Bool)
  | streamData (chunk : String)
  | streamClose (code : Option Nat) (signal : Option String)
  | connError
  | timeoutFire
deriving DecidableEq, Repr

/-- The mutable state of one `executeCommand` promise executor
(`src/sshOperations.js` lines 88-168): the `settled` flag, whether the
timer is still pending (`timer`), whether `ready` fired, whether the
`exec` callback fired, whether the stream handlers are installed
(`streamOpen`), the accumulated `output` buffer, the resolution value and
the number of `resolve` invocations, and whether `conn.destroy()` was
called. -/
structure ExecState where
  settled : Bool
  timer : Bool
  connReady : Bool
  execCbFired : Bool
  streamOpen : Bool
  output : String
  result : Option ExecResult
  resolves : Nat
  connDestroyed : Bool
deriving DecidableEq, Repr

/-- State at the end of the promise executor body: nothing settled, the
timer pending iff a positive `timeout` argument was given (line 155). -/
def initState (timeout : Nat) : ExecState :=
  { settled := false
    timer := decide (0 < timeout)
    connReady := false
    execCbFired := false
    streamOpen := false
    output := ""
    result := none
    resolves := 0
    connDestroyed := false }

/-- The `if (!settled) { settled = true; resolve(r); }` pattern present in
all four resolution sites (lines 115-118, 126-129, 141-144, 161-164). -/
def resolveStep (r : ExecResult) (s : ExecState) : ExecState :=
  if s.settled then s
  else { s with settled := true, result := some r, resolves := s.resolves + 1 }

/-- One event handler of `executeCommand`:
* `ready` (line 108): `cleanup()` clears the timer, then `conn.exec` is
  issued; its callback arrives as a separate `execCb` event.
* `execCb err` (line 112): on error, `conn.end()` then guarded resolve of
  `{success:false, sshDown:true}`; otherwise the stream handlers are
  installed and the local `output` buffer starts empty (line 122).
* `streamData` (lines 131-135): append the chunk to `output`.
* `streamClose` (line 123): `conn.end()` then guarded resolve of
  `{success:true, output, code, signal}`.
* `connError` (line 137): `cleanup()` then guarded resolve of
  `{success:false, sshDown:true}`.
* `timeoutFire` (line 156): the callback of a timer that was cleared never
  runs, hence the `s.timer` guard; when it runs: `conn.destroy()`,
  `cleanup()`, guarded resolve of `{success:false, sshDown:true}`. -/
def step (s : ExecState) : Event → ExecState
  | .ready => { s with connReady := true, timer := false }
  | .execCb err =>
    let s1 := { s with execCbFired := true }
    if err then resolveStep .down s1
    else { s1 with streamOpen := true, output := "" }
  | .streamData chunk => { s with output := s.output ++ chunk }
  | .streamClose code signal => resolveStep (.ok s.output code signal) s
  | .connError => resolveStep .down { s with timer := false }
  | .timeoutFire =>
    if s.timer then resolveStep .down { s with timer := false, connDestroyed := true }
    else s

/-- Which events the Node runtime can deliver in a given state: `ready`
fires at most once, the `exec` callback fires once and only after `ready`,
stream events require the stream handlers to be installed, a client
`error` can fire at any time (also late, after settling), and the timer
callback only runs while the timer is pending. -/
def enabled (s : ExecState) : Event → Bool
  | .ready => !s.connReady
  | .execCb _ => s.connReady && !s.execCbFired
  | .streamData _ => s.streamOpen
  | .streamClose _ _ => s.streamOpen
  | .connError => true
  | .timeoutFire => s.timer

/-- A sequence of events deliverable from state `s`. -/
def validFrom (s : ExecState) : List Event → Bool
  | [] => true
  | e :: evs => enabled s e && validFrom (step s e) evs

/-- Process a whole event sequence. -/
def run (s : ExecState) (evs : List Event) : ExecState :=
  evs.foldl step s

/-- Terminal events: each makes `executeCommand` reach a resolution site. -/
def isTerminal : Event → Bool
  | .execCb err => err
  | .streamClose _ _ => true
  | .connError => true
  | .timeoutFire => true
  | _ => false

/-- The resolution value a terminal event produces, given the output
accumulated so far. -/
def terminalResult (e : Event) (out : String) : ExecResult :=
  match e with
  | .streamClose code signal => .ok out code signal
  | _ => .down

/-- Concatenation of the data chunks in an event sequence. -/
def dataConcat : List Event → String
  | [] => ""
  | .streamData chunk :: evs => chunk ++ dataConcat evs
  | _ :: evs => dataConcat evs

theorem run_nil (s : ExecState) : run s [] = s := rfl

theorem run_cons (s : ExecState) (e : Event) (evs : List Event) :
    run s (e :: evs) = run (step s e) evs := rfl

theorem run_append (s : ExecState) (xs ys : List Event) :
    run s (xs ++ ys) = run (run s xs) ys :=
  List.foldl_append step s xs ys

theorem validFrom_append (s : ExecState) (xs ys : List Event) :
    validFrom s (xs ++ ys) = (validFrom s xs && validFrom (run s xs) ys) := by
  induction xs generalizing s with
  | nil => simp [validFrom, run_nil]
  | cons e xs ih =>
    simp [validFrom, run_cons, ih, Bool.and_assoc]

/-- Once `settled` is set, no later event changes the settled flag, the
resolution value, or the number of `resolve` invocations: every resolution
site is guarded by the `settled` flag. -/
theorem run_settled (evs : List Event) (s : ExecState) (h : s.settled = true) :
    (run s evs).settled = true ∧ (run s evs).result = s.result ∧
      (run s evs).resolves = s.resolves := by
  induction evs generalizing s with
  | nil => exact ⟨h, rfl, rfl⟩
  | cons e evs ih =>
    rw [run_cons]
    have hstep : (step s e).settled = true ∧ (step s e).result = s.result ∧
        (step s e).resolves = s.resolves := by
      cases e with
      | ready => exact ⟨h, rfl, rfl⟩
      | execCb err =>
        cases err <;> simp [step, resolveStep, h]
      | streamData chunk => exact ⟨h, rfl, rfl⟩
      | streamClose code signal => simp [step, resolveStep, h]
      | connError => simp [step, resolveStep, h]
      | timeoutFire =>
        by_cases ht : s.timer <;> simp [step, resolveStep, h, ht]
    obtain ⟨h1, h2, h3⟩ := hstep
    obtain ⟨h1', h2', h3'⟩ := ih (step s e) h1
    exact ⟨h1', h2'.trans h2, h3'.trans h3⟩

/-- Processing only non-terminal events from an unsettled state leaves the
call unsettled, the resolution value and resolve count untouched, and
appends exactly the delivered data chunks to the output buffer.  The two
auxiliary hypotheses are invariants of every reachable state: stream
handlers are only installed by the `exec` callback, and before that
callback the output buffer is empty. -/
theorem run_nonterminal (evs : List Event) (s : ExecState)
    (hs : s.settled = false)
    (hso : s.streamOpen = true → s.execCbFired = true)
    (hout : s.execCbFired = false → s.output = "")
    (hv : validFrom s evs = true)
    (hnt : ∀ e ∈ evs, isTerminal e = false) :
    (run s evs).settled = false ∧ (run s evs).result = s.result ∧
      (run s evs).resolves = s.resolves ∧
      (run s evs).output = s.output ++ dataConcat evs := by
  induction evs generalizing s with
  | nil => exact ⟨hs, rfl, rfl, by simp [run_nil, dataConcat]⟩
  | cons e evs ih =>
    rw [run_cons]
    rw [validFrom, Bool.and_eq_true] at hv
    obtain ⟨hen, hv⟩ := hv
    have hnt0 : isTerminal e = false := hnt e (List.mem_cons_self e evs)
    have hnt' : ∀ e' ∈ evs, isTerminal e' = false :=
      fun e' he' => hnt e' (List.mem_cons_of_mem e he')
    cases e with
    | ready =>
      obtain ⟨h1, h2, h3, h4⟩ := ih (step s .ready) hs hso hout hv hnt'
      refine ⟨h1, h2, h3, ?_⟩
      rw [h4]; simp [step, dataConcat]
    | execCb err =>
      cases err with
      | true => simp [isTerminal] at hnt0
      | false =>
        have hcb : s.execCbFired = false := by
          simp [enabled, Bool.and_eq_true] at hen
          exact hen.2
        have hnew : step s (.execCb false) =
            { s with execCbFired := true, streamOpen := true, output := "" } := by
          simp [step]
        obtain ⟨h1, h2, h3, h4⟩ := ih (step s (.execCb false)) (by rw [hnew]; exact hs)
          (by rw [hnew]; intro _; rfl)
          (by rw [hnew]; intro hc; simp at hc) hv hnt'
        refine ⟨h1, h2, h3, ?_⟩
        rw [h4, hnew]
        simp [dataConcat, hout hcb]
    | streamData chunk =>
      have hnew : step s (.streamData chunk) = { s with output := s.output ++ chunk } := rfl
      have hsoN : (step s (.streamData chunk)).streamOpen = true →
          (step s (.streamData chunk)).execCbFired = true := by
        rw [hnew]; exact hso
      have houtN : (step s (.streamData chunk)).execCbFired = false →
          (step s (.streamData chunk)).output = "" := by
        rw [hnew]
        intro hc
        have hopen : s.streamOpen = true := by simpa [enabled] using hen
        simp [hso hopen] at hc
      obtain ⟨h1, h2, h3, h4⟩ := ih _ (by rw [hnew]; exact hs) hsoN houtN hv hnt'
      refine ⟨h1, h2, h3, ?_⟩
      rw [h4, hnew]
      simp [dataConcat, String.append_assoc]
    | streamClose code signal => simp [isTerminal] at hnt0
    | connError => simp [isTerminal] at hnt0
    | timeoutFire => simp [isTerminal] at hnt0

/-- Any event sequence containing a terminal event splits into a
terminal-free prefix, the first terminal event, and a suffix. -/
theorem exists_first_terminal (evs : List Event) (h : evs.any isTerminal = true) :
    ∃ pre t post, evs = pre ++ t :: post ∧
      (∀ e ∈ pre, isTerminal e = false) ∧ isTerminal t = true := by
  induction evs with
  | nil => simp at h
  | cons e evs ih =>
    by_cases he : isTerminal e = true
    · exact ⟨[], e, evs, rfl, by simp, he⟩
    · have he' : isTerminal e = false := by
        cases hh : isTerminal e
        · rfl
        · exact absurd hh he
      have h' : evs.any isTerminal = true := by
        simp [List.any_cons, he'] at h
        simpa using h
      obtain ⟨pre, t, post, heq, hpre, ht⟩ := ih h'
      refine ⟨e :: pre, t, post, by rw [heq, List.cons_append], ?_, ht⟩
      intro e' he''
      rcases List.mem_cons.mp he'' with h1 | h1
      · rw [h1]; exact he'
      · exact hpre e' h1

/-- From an unsettled state, a valid sequence whose first terminal event is
`t` (preceded by the terminal-free prefix `pre`) invokes `resolve` exactly
once more and settles on the value determined by `t` and the output
accumulated up to it. -/
theorem run_first_terminal (s : ExecState) (pre : List Event) (t : Event)
    (post : List Event)
    (hs : s.settled = false)
    (hso : s.streamOpen = true → s.execCbFired = true)
    (hout : s.execCbFired = false → s.output = "")
    (hv : validFrom s (pre ++ t :: post) = true)
    (hpre : ∀ e ∈ pre, isTerminal e = false)
    (ht : isTerminal t = true) :
    (run s (pre ++ t :: post)).settled = true ∧
      (run s (pre ++ t :: post)).result =
        some (terminalResult t (s.output ++ dataConcat pre)) ∧
      (run s (pre ++ t :: post)).resolves = s.resolves + 1 := by
  rw [validFrom_append, Bool.and_eq_true] at hv
  obtain ⟨hvpre, hv⟩ := hv
  rw [validFrom, Bool.and_eq_true] at hv
  obtain ⟨hen, hvpost⟩ := hv
  obtain ⟨h1, h2, h3, h4⟩ := run_nonterminal pre s hs hso hout hvpre hpre
  set s1 := run s pre with hs1
  have hstep : (step s1 t).settled = true ∧
      (step s1 t).result = some (terminalResult t (s.output ++ dataConcat pre)) ∧
      (step s1 t).resolves = s.resolves + 1 := by
    cases t with
    | ready => simp [isTerminal] at ht
    | execCb err =>
      cases err with
      | false => simp [isTerminal] at ht
      | true =>
        simp [step, resolveStep, h1, terminalResult, h3]
    | streamData chunk => simp [isTerminal] at ht
    | streamClose code signal =>
      simp [step, resolveStep, h1, terminalResult, h3, h4]
    | connError =>
      simp [step, resolveStep, h1, terminalResult, h3]
    | timeoutFire =>
      have htimer : s1.timer = true := by simpa [enabled] using hen
      simp [step, resolveStep, h1, h3, htimer, terminalResult]
  obtain ⟨hA, hB, hC⟩ := hstep
  obtain ⟨hA', hB', hC'⟩ := run_settled post (step s1 t) hA
  rw [run_append, run_cons, ← hs1]
  exact ⟨hA', hB'.trans hB, hC'.trans hC⟩

/-- Reachable-state invariant for the timer: the `ready` handler and every
resolution path clear the timer (`cleanup()`), so a pending timer implies
the connection is not yet ready and the call is not yet settled; stream
handlers only exist once the connection was ready. -/
def TimerInv (s : ExecState) : Prop :=
  (s.connReady = true → s.timer = false) ∧
    (s.settled = true → s.timer = false) ∧
    (s.streamOpen = true → s.connReady = true)

theorem timerInv_init (timeout : Nat) : TimerInv (initState timeout) := by
  refine ⟨?_, ?_, ?_⟩ <;> intro h <;> simp [initState] at h

theorem timerInv_step (s : ExecState) (e : Event)
    (hInv : TimerInv s) (hen : enabled s e = true) : TimerInv (step s e) := by
  obtain ⟨hrt, hst, hsr⟩ := hInv
  cases e with
  | ready =>
    exact ⟨fun _ => rfl, fun _ => rfl, fun _ => rfl⟩
  | execCb err =>
    have hready : s.connReady = true := by
      simp [enabled, Bool.and_eq_true] at hen
      exact hen.1
    have htimer : s.timer = false := hrt hready
    cases err with
    | true =>
      refine ⟨?_, ?_, ?_⟩ <;> simp [step, resolveStep] <;> split <;>
        simp_all
    | false =>
      exact ⟨fun _ => htimer, fun h => htimer, fun _ => hready⟩
  | streamData chunk =>
    exact ⟨hrt, hst, hsr⟩
  | streamClose code signal =>
    have hopen : s.streamOpen = true := by simpa [enabled] using hen
    have htimer : s.timer = false := hrt (hsr hopen)
    refine ⟨?_, ?_, ?_⟩ <;> simp [step, resolveStep] <;> split <;> simp_all
  | connError =>
    refine ⟨?_, ?_, ?_⟩ <;> simp [step, resolveStep] <;> split <;> simp_all
  | timeoutFire =>
    have htimer : s.timer = true := by simpa [enabled] using hen
    refine ⟨?_, ?_, ?_⟩ <;> simp [step, resolveStep, htimer] <;> split <;> simp_all

theorem timerInv_run (evs : List Event) (s : ExecState)
    (hInv : TimerInv s) (hv : validFrom s evs = true) : TimerInv (run s evs) := by
  induction evs generalizing s with
  | nil => exact hInv
  | cons e evs ih =>
    rw [validFrom, Bool.and_eq_true] at hv
    rw [run_cons]
    exact ih (step s e) (timerInv_step s e hInv hv.1) hv.2

/-- The call `conn.destroy()` is never undone: the flag is monotone along any run. -/
theorem connDestroyed_mono (evs : List Event) (s : ExecState)
    (h : s.connDestroyed = true) : (run s evs).connDestroyed = true := by
  induction evs generalizing s with
  | nil => exact h
  | cons e evs ih =>
    rw [run_cons]
    refine ih (step s e) ?_
    cases e <;> simp [step, resolveStep] <;> (try split) <;> (try split) <;> simp_all

theorem empty_append_str (s : String) : "" ++ s = s := rfl

/-- C1: for every valid sequence of transport events delivered to one
`executeCommand` call whose server name is present in the registry, the
promise is resolved exactly once when a terminal event occurs and never
otherwise, and the resolution value is determined by the first terminal
event: `{success:true, output, code, signal}` if the stream close came
first, `{success:false, sshDown:true}` if a connection error, exec error,
or timeout came first. -/
theorem executeCommand_resolves_once (timeout : Nat) (evs : List Event)
    (hv : validFrom (initState timeout) evs = true) :
    (run (initState timeout) evs).resolves =
        (if evs.any isTerminal then 1 else 0) ∧
      (∀ pre t post, evs = pre ++ t :: post →
        (∀ e ∈ pre, isTerminal e = false) → isTerminal t = true →
        (run (initState timeout) evs).result =
          some (terminalResult t (dataConcat pre))) ∧
      ((∀ e ∈ evs, isTerminal e = false) →
        (run (initState timeout) evs).result = none) := by
  have hs : (initState timeout).settled = false := rfl
  have hso : (initState timeout).streamOpen = true →
      (initState timeout).execCbFired = true := by
    intro h; simp [initState] at h
  have hout : (initState timeout).execCbFired = false →
      (initState timeout).output = "" := fun _ => rfl
  refine ⟨?_, ?_, ?_⟩
  · by_cases h : evs.any isTerminal = true
    · obtain ⟨pre, t, post, heq, hpre, ht⟩ := exists_first_terminal evs h
      rw [heq] at hv ⊢
      obtain ⟨_, _, h3⟩ := run_first_terminal (initState timeout) pre t post hs hso hout hv hpre ht
      rw [h3]
      rw [heq] at h
      simp [h, initState]
    · have h' : evs.any isTerminal = false := by
        cases hh : evs.any isTerminal
        · rfl
        · exact absurd hh h
      have hall : ∀ e ∈ evs, isTerminal e = false := by
        intro e he
        have := List.any_eq_false.mp h' e he
        cases hh : isTerminal e
        · rfl
        · exact absurd hh this
      obtain ⟨_, _, h3, _⟩ := run_nonterminal evs (initState timeout) hs hso hout hv hall
      rw [h3, h']
      rfl
  · intro pre t post heq hpre ht
    rw [heq] at hv ⊢
    obtain ⟨_, h2, _⟩ := run_first_terminal (initState timeout) pre t post hs hso hout hv hpre ht
    rw [h2]
    have : (initState timeout).output ++ dataConcat pre = dataConcat pre :=
      empty_append_str _
    rw [this]
  · intro hall
    obtain ⟨_, h2, _, _⟩ := run_nonterminal evs (initState timeout) hs hso hout hv hall
    exact h2

theorem executeCommand_resolves_once_witness :
    (run (initState 7)
        [Event.ready, Event.execCb false, Event.streamData "x",
          Event.streamClose (some 0) none, Event.connError]).resolves = 1 ∧
      (run (initState 7)
        [Event.ready, Event.execCb false, Event.streamData "x",
          Event.streamClose (some 0) none, Event.connError]).result =
        some (ExecResult.ok "x" (some 0) none) := by
  have h := executeCommand_resolves_once 7
    [Event.ready, Event.execCb false, Event.streamData "x",
      Event.streamClose (some 0) none, Event.connError] (by decide)
  constructor
  · rw [h.1]; decide
  · have h2 := h.2.1 [Event.ready, Event.execCb false, Event.streamData "x"]
      (Event.streamClose (some 0) none) [Event.connError] rfl (by decide) rfl
    rw [h2]; decide

/-- C2 counterexample: with a non-zero timeout, once the connection became
ready (and the command is executing with no terminal outcome yet) the
timer has already been cleared by the `ready` handler's `cleanup()`, so
the timeout elapsing produces no resolution and no `conn.destroy()` —
contradicting the claim that a timeout elapsing before any terminal
outcome, including after ready, resolves `{success:false, sshDown:true}`. -/
theorem executeCommand_timeout_cex :
    validFrom (initState 100) [Event.ready, Event.execCb false] = true ∧
      (run (initState 100) [Event.ready, Event.execCb false]).timer = false ∧
      (run (initState 100) [Event.ready, Event.execCb false]).settled = false ∧
      (run (initState 100)
        [Event.ready, Event.execCb false, Event.timeoutFire]).result = none ∧
      (run (initState 100)
        [Event.ready, Event.execCb false, Event.timeoutFire]).connDestroyed = false ∧
      (run (initState 100)
        [Event.ready, Event.execCb false, Event.timeoutFire]).resolves = 0 := by
  decide

/-- C2 amended: with a non-zero timeout, the timeout can only fire while
the connection is not yet ready and the call unsettled; when it fires, the
connection is destroyed and the call resolves `{success:false,
sshDown:true}`; and on every valid run, once the call is settled no timer
remains pending. -/
theorem executeCommand_timeout_preReady (timeout : Nat) (evs pre post : List Event)
    (_hpos : 0 < timeout)
    (hv : validFrom (initState timeout) evs = true)
    (hsplit : evs = pre ++ Event.timeoutFire :: post) :
    (run (initState timeout) pre).connReady = false ∧
      (run (initState timeout) pre).settled = false ∧
      (run (initState timeout) evs).result = some ExecResult.down ∧
      (run (initState timeout) evs).connDestroyed = true ∧
      (∀ evs2, validFrom (initState timeout) evs2 = true →
        (run (initState timeout) evs2).settled = true →
        (run (initState timeout) evs2).timer = false) := by
  subst hsplit
  rw [validFrom_append, Bool.and_eq_true] at hv
  obtain ⟨hvpre, hv⟩ := hv
  rw [validFrom, Bool.and_eq_true] at hv
  obtain ⟨hen, hvpost⟩ := hv
  set s1 := run (initState timeout) pre with hs1
  have htimer : s1.timer = true := by simpa [enabled] using hen
  have hInv : TimerInv s1 := timerInv_run pre _ (timerInv_init timeout) hvpre
  obtain ⟨hrt, hst, _⟩ := hInv
  have hready : s1.connReady = false := by
    cases hh : s1.connReady
    · rfl
    · rw [hrt hh] at htimer; exact absurd htimer (by simp)
  have hsettled : s1.settled = false := by
    cases hh : s1.settled
    · rfl
    · rw [hst hh] at htimer; exact absurd htimer (by simp)
  have hstep : (step s1 .timeoutFire).result = some ExecResult.down ∧
      (step s1 .timeoutFire).settled = true ∧
      (step s1 .timeoutFire).connDestroyed = true := by
    simp [step, resolveStep, htimer, hsettled]
  refine ⟨hready, hsettled, ?_, ?_, ?_⟩
  · rw [run_append, run_cons, ← hs1]
    obtain ⟨_, h2, _⟩ := run_settled post (step s1 .timeoutFire) hstep.2.1
    rw [h2, hstep.1]
  · rw [run_append, run_cons, ← hs1]
    exact connDestroyed_mono post _ hstep.2.2
  · intro evs2 hv2 hsettled2
    exact (timerInv_run evs2 _ (timerInv_init timeout) hv2).2.1 hsettled2

theorem executeCommand_timeout_preReady_witness :
    (run (initState 100) [Event.timeoutFire]).result = some ExecResult.down ∧
      (run (initState 100) [Event.timeoutFire]).connDestroyed = true := by
  have h := executeCommand_timeout_preReady 100 [Event.timeoutFire] [] []
    (by decide) (by decide) rfl
  exact ⟨h.2.2.1, h.2.2.2.1⟩

/-!
## Call-level model of the public operations

The registry `this.config` is a JavaScript object mapping server names to
server configurations; it is embedded as an association list with unique
keys, looked up by first match.  Accessing a property of `undefined` (a
missing registry entry) raises `TypeError`, embedded as `Except.error`.
The value the inner `executeCommand` promise resolves with is an explicit
oracle argument of type `ExecResult`; each output carries a `Bool`
recording whether the remote transport was consulted.
-/

/-- One entry of the server registry (after the external loader applied
its defaults). -/
structure ServerConfig where
  host : String
  username : String
  screen_name : String
  shell : String
  server_module : Option String
  conda_env : Option String
  server_script : Option String
  active : Bool
  httpPort : Nat
deriving DecidableEq, Repr

/-- The registry `this.config`, in key insertion order. -/
abbrev Config := List (String × ServerConfig)

/-- JavaScript exceptions the operations can raise: property access on
`undefined`. -/
inductive JsError where
  | typeError
deriving DecidableEq, Repr

/-- The structured result objects the operations return. -/
inductive OpResult where
  | ok (output : String) (code : Option Nat) (signal : Option String)
  | down
  | cfgError (msg : String)
  | okStatus (status : Bool)
  | okSessions (host : String) (sessions : List String)
  | downHost (host : String)
deriving DecidableEq, Repr

/-- The `success` field of a result object. -/
def OpResult.success : OpResult → Bool
  | .ok _ _ _ => true
  | .okStatus _ => true
  | .okSessions _ _ => true
  | _ => false

/-- Truthiness of the `sshDown` field of a result object (absent fields
read as `undefined`, which is falsy). -/
def OpResult.sshDown : OpResult → Bool
  | .down => true
  | .downHost _ => true
  | _ => false

/-- Coerce an `executeCommand` resolution into the common result shape. -/
def ExecResult.toOp : ExecResult → OpResult
  | .ok output code signal => .ok output code signal
  | .down => .down

/-- Lookup `this.config[serverName]`. -/
def lookupServer (cfg : Config) (serverName : String) : Option ServerConfig :=
  (List.find? (fun p => p.1 = serverName) cfg).map (fun p => p.2)

/-- The scan `Object.keys(this.config).find(name => this.config[name].host === host)`
(`getBatchServerStatus`, lines 263-265). -/
def findServerByHost (cfg : Config) (host : String) : Option String :=
  (List.find? (fun p => p.2.host = host) cfg).map (fun p => p.1)

deriving instance DecidableEq for Except

/-- Outcome of one public operation call: the value returned (or the
exception raised), and whether a remote connection was attempted. -/
structure CallOut where
  outcome : Except JsError OpResult
  remote : Bool
deriving DecidableEq, Repr

/-- Model of `executeCommand` at call level (lines 88-168): a missing registry
entry resolves `{success:false, sshDown:true}` without connecting
(lines 91-94); otherwise the connection is attempted and the promise
resolves with the transport outcome (the `oracle`). -/
def executeCommandM (cfg : Config) (serverName : String) (_command : String)
    (oracle : ExecResult) : OpResult × Bool :=
  match lookupServer cfg serverName with
  | none => (.down, false)
  | some _ => (oracle.toOp, true)

/-- The path `path.join('.afl', screen_name + '.screenlog')` (lines 172, 322). -/
def screenLogPathOf (sc : ServerConfig) : String :=
  ".afl/" ++ sc.screen_name ++ ".screenlog"

/-- The start command built by `startServer` (lines 173-185); `none` when
neither `server_module` nor `server_script` is configured. -/
def startCommandOf (sc : ServerConfig) : Option String :=
  match sc.server_module with
  | some m =>
    let command :=
      match sc.conda_env with
      | some env => "conda activate " ++ env ++ ";" ++ "python -m " ++ m
      | none => "python -m " ++ m
    some ("screen -d -m -L -Logfile $\x7bHOME\x7d/" ++ screenLogPathOf sc ++
      " -S " ++ sc.screen_name ++ " " ++ sc.shell ++ " -ci \"" ++ command ++ "\"")
  | none =>
    match sc.server_script with
    | some script =>
      some ("screen -d -m -L -Logfile $\x7bHOME\x7d/" ++ screenLogPathOf sc ++
        " -S " ++ sc.screen_name ++ " " ++ script)
    | none => none

/-- Model of `startServer` (lines 170-188): dereferences the registry entry at
line 172 (raising `TypeError` when absent), then either fails with the
configuration error of line 184 without a remote call, or delegates to
`executeCommand`. -/
def startServerM (cfg : Config) (serverName : String) (oracle : ExecResult) : CallOut :=
  match lookupServer cfg serverName with
  | none => ⟨.error .typeError, false⟩
  | some sc =>
    match startCommandOf sc with
    | none =>
      ⟨.ok (.cfgError "Neither server_module nor server_script specified in config"), false⟩
    | some startCommand =>
      let (r, b) := executeCommandM cfg serverName startCommand oracle
      ⟨.ok r, b⟩

/-- Model of `stopServer` (lines 190-194): dereferences the registry entry at
line 192, then returns `executeCommand`'s result unmodified. -/
def stopServerM (cfg : Config) (serverName : String) (oracle : ExecResult) : CallOut :=
  match lookupServer cfg serverName with
  | none => ⟨.error .typeError, false⟩
  | some sc =>
    let stopCommand := "screen -X -S " ++ sc.screen_name ++ " quit"
    let (r, b) := executeCommandM cfg serverName stopCommand oracle
    ⟨.ok r, b⟩

/-- The branch of `restartServer` after `stop` settled (lines 198-201):
a stop failure without `sshDown` is returned without calling `start`;
otherwise `start` runs. The `Bool` records whether `startServer` was
invoked. -/
def restartFromStop (stopR : OpResult) (start : CallOut) : CallOut × Bool :=
  if !stopR.success && !stopR.sshDown then (⟨.ok stopR, false⟩, false)
  else (start, true)

/-- Whether `startServer` was invoked, and the restart outcome
(`restartServer`, lines 196-202). -/
structure RestartOut where
  outcome : Except JsError OpResult
  startCalled : Bool
deriving DecidableEq, Repr

def restartServerM (cfg : Config) (serverName : String)
    (stopOracle startOracle : ExecResult) : RestartOut :=
  match (stopServerM cfg serverName stopOracle).outcome with
  | .error e => ⟨.error e, false⟩
  | .ok stopR =>
    let (res, called) := restartFromStop stopR (startServerM cfg serverName startOracle)
    ⟨res.outcome, called⟩

/-- Model of `getServerLog` (lines 320-325). -/
def getServerLogM (cfg : Config) (serverName : String) (lineCount : Nat)
    (oracle : ExecResult) : CallOut :=
  match lookupServer cfg serverName with
  | none => ⟨.error .typeError, false⟩
  | some sc =>
    let logCommand :=
      "tail -n " ++ toString lineCount ++ " $\x7bHOME\x7d/" ++ screenLogPathOf sc
    let (r, b) := executeCommandM cfg serverName logCommand oracle
    ⟨.ok r, b⟩

/-- Model of `joinServer` (lines 327-331). -/
def joinServerM (cfg : Config) (serverName : String) (oracle : ExecResult) : CallOut :=
  match lookupServer cfg serverName with
  | none => ⟨.error .typeError, false⟩
  | some sc =>
    let joinCommand := "screen -x " ++ sc.screen_name
    let (r, b) := executeCommandM cfg serverName joinCommand oracle
    ⟨.ok r, b⟩

/-!
## Session-listing parser

`line.match(/\d+\.([^\s\t]+)/)` (lines 238 and 283): leftmost match of one
or more digits, a literal dot, then one or more non-whitespace characters
(greedy; `[^\s\t]` equals `[^\s]` since `\s` contains the tab).  Since a
dot is not a digit, backtracking inside `\d+` can never produce a match
that the maximal digit run does not, so the leftmost match is found by
scanning each start position and taking the maximal digit run there.
Whitespace is modelled as the ASCII part of JavaScript's `\s`.
-/

def isDigitChar (c : Char) : Bool := '0' ≤ c && c ≤ '9'

def isJsWhitespace (c : Char) : Bool :=
  c = ' ' || c = '\t' || c = '\n' || c = '\r' || c = '\x0b' || c = '\x0c'

/-- Try to match `\d+\.([^\s\t]+)` anchored at the start of `cs`,
returning the first capture group. -/
def tokenAt (cs : List Char) : Option (List Char) :=
  let ds := cs.takeWhile isDigitChar
  if ds.isEmpty then none
  else
    match cs.drop ds.length with
    | '.' :: rest =>
      let nm := rest.takeWhile (fun c => !isJsWhitespace c)
      if nm.isEmpty then none else some nm
    | _ => none

/-- Leftmost match: scan start positions left to right. -/
def findToken : List Char → Option (List Char)
  | [] => none
  | c :: cs =>
    match tokenAt (c :: cs) with
    | some nm => some nm
    | none => findToken cs

/-- The check `match && match[1]` for one line: the captured session name, if any
(the capture is necessarily non-empty, hence truthy). -/
def lineSession (line : String) : Option String :=
  (findToken line.data).map List.asString

/-- Model of `String.prototype.split('\n')`: split on every newline, keeping empty
pieces (an empty input yields one empty piece). -/
def splitLinesGo : List Char → List Char → List String
  | [], acc => [acc.reverse.asString]
  | c :: rest, acc =>
    if c = '\n' then acc.reverse.asString :: splitLinesGo rest []
    else splitLinesGo rest (c :: acc)

def splitLines (s : String) : List String :=
  splitLinesGo s.data []

/-- The parsing loop over `result.output.split('\n')`
(lines 234-242 and 280-287). -/
def parseScreenSessions (output : String) : List String :=
  (splitLines output).filterMap lineSession

/-!
## Status cache and batch resolver

`this.screenSessionCache` maps a host to `{timestamp, sessions}`.
`Date.now()` values are embedded as integers.  Assigning
`this.screenSessionCache[host] = entry` replaces the entry in place
(object keys are unique) or appends a new key.
-/

structure CacheEntry where
  timestamp : Int
  sessions : List String
deriving DecidableEq, Repr

abbrev Cache := List (String × CacheEntry)

/-- Lookup `this.screenSessionCache[host]`. -/
def cacheLookup (cache : Cache) (host : String) : Option CacheEntry :=
  (List.find? (fun p => p.1 = host) cache).map (fun p => p.2)

/-- Assignment `this.screenSessionCache[host] = entry`. -/
def cacheInsert : Cache → String → CacheEntry → Cache
  | [], host, entry => [(host, entry)]
  | p :: ps, host, entry =>
    if p.1 = host then (host, entry) :: ps else p :: cacheInsert ps host entry

/-- The freshness test of line 214:
`cachedData && (now - cachedData.timestamp) < 5000`. -/
def cacheFresh (cache : Cache) (host : String) (now : Int) : Bool :=
  match cacheLookup cache host with
  | some entry => decide (now - entry.timestamp < 5000)
  | none => false

/-- Outcome of a `getServerStatus` call: the value returned (or exception
raised), the cache afterwards, and whether a remote command was issued. -/
structure StatusOut where
  outcome : Except JsError OpResult
  cache : Cache
  remote : Bool

/-- Model of `getServerStatus` (lines 204-258): dereferences the registry entry at
line 207 (raising `TypeError` when absent); a fresh cache entry answers
membership without a remote call (lines 214-219); otherwise `screen -ls`
runs with a 500 ms timeout, a transport failure returns
`{success:false, sshDown:true}` without touching the cache, and a success
is parsed, cached under the `Date.now()` value captured at line 212, and
answered by membership. -/
def getServerStatusM (cfg : Config) (cache : Cache) (now : Int)
    (oracle : ExecResult) (serverName : String) : StatusOut :=
  match lookupServer cfg serverName with
  | none => ⟨.error .typeError, cache, false⟩
  | some sc =>
    let host := sc.host
    if cacheFresh cache host now then
      match cacheLookup cache host with
      | some entry =>
        ⟨.ok (.okStatus (entry.sessions.contains sc.screen_name)), cache, false⟩
      | none => ⟨.ok (.okStatus false), cache, false⟩
    else
      match executeCommandM cfg serverName "screen -ls" oracle with
      | (.ok output _ _, b) =>
        let screenSessions := parseScreenSessions output
        ⟨.ok (.okStatus (screenSessions.contains sc.screen_name)),
          cacheInsert cache host ⟨now, screenSessions⟩, b⟩
      | (_, b) => ⟨.ok .down, cache, b⟩

/-- Outcome of a `getBatchServerStatus` call. -/
structure BatchOut where
  result : OpResult
  cache : Cache
  remote : Bool

/-- Model of `getBatchServerStatus` (lines 261-301): picks the first registry entry
whose host matches (lines 263-265); with none, returns the configuration
error of line 268; a transport failure returns
`{success:false, sshDown:true, host}`; a success is parsed, cached under
the `Date.now()` of line 290, and the full session list returned. -/
def getBatchServerStatusM (cfg : Config) (cache : Cache) (now : Int)
    (oracle : ExecResult) (host : String) : BatchOut :=
  match findServerByHost cfg host with
  | none => ⟨.cfgError ("No server configured for host " ++ host), cache, false⟩
  | some serverName =>
    match executeCommandM cfg serverName "screen -ls" oracle with
    | (.ok output _ _, b) =>
      let screenSessions := parseScreenSessions output
      ⟨.okSessions host screenSessions,
        cacheInsert cache host ⟨now, screenSessions⟩, b⟩
    | (_, b) => ⟨.downHost host, cache, b⟩

/-!
## Remote document store

`saveRemoteAflConfig` (src/unnamed/part_000, lines 413-430) reads
`/home/<username>/.afl/config.json`, parses it (read failure, falsy data,
or a parse error leave the empty document `{}`), assigns
`existing[ts] = cfgObj`, and writes the serialization back.  The document
is embedded as an association list in key insertion order; the outcome of
`readRemoteFile` plus `JSON.parse` is an explicit oracle, and the value of
interest is the document content handed to `writeRemoteFile`. -/

/-- What `readRemoteFile` followed by `JSON.parse` produced. -/
inductive ReadOutcome (α : Type) where
  | failure
  | parseError
  | parsed (doc : List (String × α))

/-- The `existing` document after lines 417-421. -/
def docOf {α : Type} : ReadOutcome α → List (String × α)
  | .parsed doc => doc
  | _ => []

/-- JavaScript property assignment `existing[ts] = cfgObj`: replace in
place, or append a new key. -/
def objSet {α : Type} : List (String × α) → String → α → List (String × α)
  | [], key, v => [(key, v)]
  | p :: ps, key, v =>
    if p.1 = key then (key, v) :: ps else p :: objSet ps key v

/-- Property lookup on the document object. -/
def docLookup {α : Type} (doc : List (String × α)) (key : String) : Option α :=
  (List.find? (fun p => p.1 = key) doc).map (fun p => p.2)

/-- Model of `getServerForHost` (part_000, lines 333-337). -/
def getServerForHostM (cfg : Config) (host : String) : Option ServerConfig :=
  (List.find? (fun p => p.2.host = host) cfg).map (fun p => p.2)

/-- Model of `saveRemoteAflConfig` (part_000, lines 413-430), returning the
document content written back (`none` when no server matches the host and
the call returns `{success:false, error}` without writing). The timestamp
key `ts` computed from the current instant is an explicit argument. -/
def saveRemoteAflConfigM {α : Type} (cfg : Config) (host : String)
    (readRes : ReadOutcome α) (ts : String) (cfgObj : α) :
    Option (List (String × α)) :=
  match getServerForHostM cfg host with
  | none => none
  | some _ => some (objSet (docOf readRes) ts cfgObj)

/-!
## Helper lemmas
-/

theorem cacheLookup_cacheInsert (cache : Cache) (host : String) (entry : CacheEntry) :
    cacheLookup (cacheInsert cache host entry) host = some entry := by
  induction cache with
  | nil => simp [cacheInsert, cacheLookup]
  | cons p ps ih =>
    by_cases h : p.1 = host
    · simp [cacheInsert, h, cacheLookup]
    · rw [cacheInsert, if_neg h, cacheLookup,
        List.find?_cons_of_neg _ (by simpa using h)]
      exact ih

theorem lookupServer_of_findServerByHost (cfg : Config) (host n0 : String)
    (h : findServerByHost cfg host = some n0) :
    ∃ sc, lookupServer cfg n0 = some sc := by
  unfold findServerByHost at h
  cases hf : List.find? (fun p => p.2.host = host) cfg with
  | none => rw [hf] at h; simp at h
  | some p =>
    rw [hf] at h
    simp only [Option.map_some', Option.some.injEq] at h
    have hmem := List.mem_of_find?_eq_some hf
    have hsome : (List.find? (fun q => q.1 = n0) cfg).isSome := by
      rw [List.find?_isSome]
      exact ⟨p, hmem, by simp [h]⟩
    cases hq : List.find? (fun q => q.1 = n0) cfg with
    | none => rw [hq] at hsome; simp at hsome
    | some q => exact ⟨q.2, by rw [lookupServer, hq]; rfl⟩

theorem objSet_append_of_lookup_none {α : Type} (doc : List (String × α))
    (ts : String) (v : α) (h : docLookup doc ts = none) :
    objSet doc ts v = doc ++ [(ts, v)] := by
  unfold docLookup at h
  rw [Option.map_eq_none'] at h
  rw [List.find?_eq_none] at h
  induction doc with
  | nil => rfl
  | cons p ps ih =>
    rw [objSet, if_neg (by simpa using h p (List.mem_cons_self p ps)),
      ih (fun q hq => h q (List.mem_cons_of_mem p hq))]
    rfl

/-!
## Claims about the error paths for missing registry entries
-/

/-- C3 counterexample: with an empty registry, `startServer` and
`getServerStatus` dereference the missing entry
(`serverConfig.screen_name` at line 172, `serverConfig.host` at line 207)
and raise `TypeError` instead of returning a structured negative result. -/
theorem missingServer_raises_cex :
    (startServerM [] "ghost" ExecResult.down).outcome =
        Except.error JsError.typeError ∧
      (getServerStatusM [] [] 0 ExecResult.down "ghost").outcome =
        Except.error JsError.typeError := by
  constructor <;> rfl

/-- C3 amended: for a name or host with no registry entry, no remote call
is attempted by any operation; `executeCommand` resolves
`{success:false, sshDown:true}` and `getBatchServerStatus` returns
`{success:false, error}` as structured results, while `startServer`,
`stopServer`, `restartServer`, `getServerStatus`, `getServerLog` and
`joinServer` raise `TypeError` on the missing entry instead of returning a
structured result. -/
theorem missingServer_behavior (cfg : Config) (cache : Cache) (now : Int)
    (serverName host command : String) (lineCount : Nat) (o o2 : ExecResult)
    (hname : lookupServer cfg serverName = none)
    (hhost : findServerByHost cfg host = none) :
    executeCommandM cfg serverName command o = (OpResult.down, false) ∧
      startServerM cfg serverName o = ⟨Except.error JsError.typeError, false⟩ ∧
      stopServerM cfg serverName o = ⟨Except.error JsError.typeError, false⟩ ∧
      restartServerM cfg serverName o o2 = ⟨Except.error JsError.typeError, false⟩ ∧
      getServerStatusM cfg cache now o serverName =
        ⟨Except.error JsError.typeError, cache, false⟩ ∧
      getServerLogM cfg serverName lineCount o =
        ⟨Except.error JsError.typeError, false⟩ ∧
      joinServerM cfg serverName o = ⟨Except.error JsError.typeError, false⟩ ∧
      getBatchServerStatusM cfg cache now o host =
        ⟨OpResult.cfgError ("No server configured for host " ++ host), cache, false⟩ := by
  refine ⟨?_, ?_, ?_, ?_, ?_, ?_, ?_, ?_⟩
  · simp [executeCommandM, hname]
  · simp [startServerM, hname]
  · simp [stopServerM, hname]
  · simp [restartServerM, stopServerM, hname]
  · simp [getServerStatusM, hname]
  · simp [getServerLogM, hname]
  · simp [joinServerM, hname]
  · simp [getBatchServerStatusM, hhost]

theorem missingServer_behavior_witness :
    executeCommandM [("a", ⟨"h1", "u", "w", "bash", none, none, none, true, 5000⟩)]
        "ghost" "screen -ls" ExecResult.down = (OpResult.down, false) ∧
      getBatchServerStatusM
        [("a", ⟨"h1", "u", "w", "bash", none, none, none, true, 5000⟩)]
        [] 0 ExecResult.down "h2" =
        ⟨OpResult.cfgError ("No server configured for host " ++ "h2"), [], false⟩ := by
  have h := missingServer_behavior
    [("a", ⟨"h1", "u", "w", "bash", none, none, none, true, 5000⟩)]
    [] 0 "ghost" "h2" "screen -ls" 200 ExecResult.down ExecResult.down
    (by decide) (by decide)
  exact ⟨h.1, h.2.2.2.2.2.2.2⟩

/-!
## Claims about restart
-/

/-- C4: the `restartServer` branch over the settled `stop` result
(lines 198-201): a stop result that failed without `sshDown:true` is
returned as the restart result and `startServer` is never invoked; a stop
result that succeeded, or failed with `sshDown:true`, proceeds to
`startServer`. -/
theorem restart_gate (stopR : OpResult) (start : CallOut) :
    ((stopR.success = false ∧ stopR.sshDown = false) →
      restartFromStop stopR start = (⟨Except.ok stopR, false⟩, false)) ∧
      (stopR.sshDown = true → restartFromStop stopR start = (start, true)) ∧
      (stopR.success = true → restartFromStop stopR start = (start, true)) := by
  refine ⟨?_, ?_, ?_⟩
  · intro h
    simp [restartFromStop, h.1, h.2]
  · intro h
    simp [restartFromStop, h]
  · intro h
    simp [restartFromStop, h]

theorem restart_gate_witness :
    restartFromStop (OpResult.cfgError "bad session") ⟨Except.ok OpResult.down, true⟩ =
        (⟨Except.ok (OpResult.cfgError "bad session"), false⟩, false) ∧
      restartFromStop OpResult.down ⟨Except.ok OpResult.down, true⟩ =
        (⟨Except.ok OpResult.down, true⟩, true) := by
  exact ⟨(restart_gate (OpResult.cfgError "bad session")
      ⟨Except.ok OpResult.down, true⟩).1 ⟨rfl, rfl⟩,
    (restart_gate OpResult.down ⟨Except.ok OpResult.down, true⟩).2.1 rfl⟩

/-- C10: for a server present in the registry, `stopServer` returns
`executeCommand`'s result unmodified, which is always either
`{success:true, ...}` or `{success:false, sshDown:true}`; hence
`restartServer`'s abort branch is unreachable and `startServer` is always
invoked. -/
theorem restart_always_starts (cfg : Config) (serverName : String)
    (sc : ServerConfig) (stopOracle startOracle : ExecResult)
    (hname : lookupServer cfg serverName = some sc) :
    (∀ r, (stopServerM cfg serverName stopOracle).outcome = Except.ok r →
      r.success = true ∨ r.sshDown = true) ∧
      (restartServerM cfg serverName stopOracle startOracle).startCalled = true := by
  have hstop : (stopServerM cfg serverName stopOracle).outcome =
      Except.ok stopOracle.toOp := by
    simp [stopServerM, hname, executeCommandM]
  constructor
  · intro r hr
    rw [hstop] at hr
    cases hr
    cases stopOracle with
    | ok output code signal => left; rfl
    | down => right; rfl
  · have hgate : restartFromStop stopOracle.toOp
        (startServerM cfg serverName startOracle) =
        (startServerM cfg serverName startOracle, true) := by
      cases stopOracle with
      | ok output code signal => simp [restartFromStop, ExecResult.toOp, OpResult.success]
      | down => simp [restartFromStop, ExecResult.toOp, OpResult.sshDown]
    rw [restartServerM, hstop]
    simp [hgate]

theorem restart_always_starts_witness :
    (restartServerM [("s", ⟨"h", "u", "w", "bash", none, none, some "run.sh", true, 5000⟩)]
      "s" ExecResult.down (ExecResult.ok "" (some 0) none)).startCalled = true :=
  (restart_always_starts
    [("s", ⟨"h", "u", "w", "bash", none, none, some "run.sh", true, 5000⟩)]
    "s" ⟨"h", "u", "w", "bash", none, none, some "run.sh", true, 5000⟩
    ExecResult.down (ExecResult.ok "" (some 0) none) (by decide)).2

/-!
## Claims about the status cache
-/

/-- C5 counterexample: with an empty cache and an unreachable host, the
first `getServerStatus` call's `screen -ls` fails, so no cache entry is
written (lines 224-226 return before the cache write); a second call 1 ms
later misses the cache again and issues a second remote session-listing
call — two remote calls within 5000 ms with no intervening cache write,
and the second call is not answered from the cache. -/
theorem statusCache_two_remote_cex :
    (getServerStatusM [("s", ⟨"h", "u", "w", "bash", none, none, none, true, 5000⟩)]
        [] 0 ExecResult.down "s").remote = true ∧
      (getServerStatusM [("s", ⟨"h", "u", "w", "bash", none, none, none, true, 5000⟩)]
        [] 0 ExecResult.down "s").cache = [] ∧
      (getServerStatusM [("s", ⟨"h", "u", "w", "bash", none, none, none, true, 5000⟩)]
        ((getServerStatusM [("s", ⟨"h", "u", "w", "bash", none, none, none, true, 5000⟩)]
          [] 0 ExecResult.down "s").cache)
        1 ExecResult.down "s").remote = true := by
  refine ⟨rfl, rfl, rfl⟩

/-- C5 amended: if the first `getServerStatus` call misses the cache and
its remote session-listing succeeds, it writes the host's entry with the
call's own query timestamp `t1`; a second call for a server on the same
host at any `t2` with `t2 - t1 < 5000`, with no intervening write, is
answered by membership in that cached session set and issues no remote
call, so only the first call contacts the host. -/
theorem statusCache_single_remote (cfg : Config) (cache : Cache)
    (t1 t2 : Int) (out : String) (code : Option Nat) (signal : Option String)
    (oracle2 : ExecResult) (n1 n2 : String) (sc1 sc2 : ServerConfig)
    (h1 : lookupServer cfg n1 = some sc1)
    (h2 : lookupServer cfg n2 = some sc2)
    (hhost : sc2.host = sc1.host)
    (hmiss : cacheFresh cache sc1.host t1 = false)
    (hdt : t2 - t1 < 5000) :
    (getServerStatusM cfg cache t1 (ExecResult.ok out code signal) n1).remote = true ∧
      (getServerStatusM cfg cache t1 (ExecResult.ok out code signal) n1).cache =
        cacheInsert cache sc1.host ⟨t1, parseScreenSessions out⟩ ∧
      (getServerStatusM cfg
        (getServerStatusM cfg cache t1 (ExecResult.ok out code signal) n1).cache
        t2 oracle2 n2).remote = false ∧
      (getServerStatusM cfg
        (getServerStatusM cfg cache t1 (ExecResult.ok out code signal) n1).cache
        t2 oracle2 n2).outcome =
        Except.ok (OpResult.okStatus
          ((parseScreenSessions out).contains sc2.screen_name)) := by
  have hr1 : getServerStatusM cfg cache t1 (ExecResult.ok out code signal) n1 =
      ⟨Except.ok (OpResult.okStatus
          ((parseScreenSessions out).contains sc1.screen_name)),
        cacheInsert cache sc1.host ⟨t1, parseScreenSessions out⟩, true⟩ := by
    rw [getServerStatusM, h1]
    simp [hmiss, executeCommandM, h1, ExecResult.toOp]
  have hlook : cacheLookup
      (cacheInsert cache sc1.host ⟨t1, parseScreenSessions out⟩) sc2.host =
      some ⟨t1, parseScreenSessions out⟩ := by
    rw [hhost]
    exact cacheLookup_cacheInsert cache sc1.host _
  have hfresh : cacheFresh
      (cacheInsert cache sc1.host ⟨t1, parseScreenSessions out⟩) sc2.host t2 = true := by
    rw [cacheFresh, hlook]
    simpa using hdt
  have hr2 : getServerStatusM cfg
      (cacheInsert cache sc1.host ⟨t1, parseScreenSessions out⟩) t2 oracle2 n2 =
      ⟨Except.ok (OpResult.okStatus
          ((parseScreenSessions out).contains sc2.screen_name)),
        cacheInsert cache sc1.host ⟨t1, parseScreenSessions out⟩, false⟩ := by
    rw [getServerStatusM, h2]
    simp [hfresh, hlook]
  rw [hr1]
  rw [hr2]
  exact ⟨rfl, rfl, rfl, rfl⟩

theorem statusCache_single_remote_witness :
    (getServerStatusM [("s", ⟨"h", "u", "worker_a", "bash", none, none, none, true, 5000⟩)]
        [] 0 (ExecResult.ok "1234.worker_a\t(Detached)" (some 0) none) "s").remote = true ∧
      (getServerStatusM [("s", ⟨"h", "u", "worker_a", "bash", none, none, none, true, 5000⟩)]
        ((getServerStatusM [("s", ⟨"h", "u", "worker_a", "bash", none, none, none, true, 5000⟩)]
          [] 0 (ExecResult.ok "1234.worker_a\t(Detached)" (some 0) none) "s").cache)
        4999 ExecResult.down "s").remote = false := by
  have h := statusCache_single_remote
    [("s", ⟨"h", "u", "worker_a", "bash", none, none, none, true, 5000⟩)]
    [] 0 4999 "1234.worker_a\t(Detached)" (some 0) none ExecResult.down "s" "s"
    ⟨"h", "u", "worker_a", "bash", none, none, none, true, 5000⟩
    ⟨"h", "u", "worker_a", "bash", none, none, none, true, 5000⟩
    (by decide) (by decide) rfl (by decide) (by decide)
  exact ⟨h.1, h.2.2.1⟩

/-- C6: a successful `getBatchServerStatus(host)` returns the parsed
session set and writes it to the host's cache entry; a `getServerStatus`
for a server on that host within the TTL and with no intervening refresh
answers membership against exactly that session set, from the cache,
with no remote call. -/
theorem batch_single_coherent (cfg : Config) (cache : Cache)
    (tB t : Int) (out : String) (code : Option Nat) (signal : Option String)
    (oracle2 : ExecResult) (host serverName n0 : String) (sc : ServerConfig)
    (hfind : findServerByHost cfg host = some n0)
    (hname : lookupServer cfg serverName = some sc)
    (hhost : sc.host = host)
    (hdt : t - tB < 5000) :
    (getBatchServerStatusM cfg cache tB (ExecResult.ok out code signal) host).result =
        OpResult.okSessions host (parseScreenSessions out) ∧
      (getBatchServerStatusM cfg cache tB (ExecResult.ok out code signal) host).cache =
        cacheInsert cache host ⟨tB, parseScreenSessions out⟩ ∧
      (getServerStatusM cfg
        (getBatchServerStatusM cfg cache tB (ExecResult.ok out code signal) host).cache
        t oracle2 serverName).remote = false ∧
      (getServerStatusM cfg
        (getBatchServerStatusM cfg cache tB (ExecResult.ok out code signal) host).cache
        t oracle2 serverName).outcome =
        Except.ok (OpResult.okStatus
          ((parseScreenSessions out).contains sc.screen_name)) := by
  obtain ⟨sc0, hsc0⟩ := lookupServer_of_findServerByHost cfg host n0 hfind
  have hb : getBatchServerStatusM cfg cache tB (ExecResult.ok out code signal) host =
      ⟨OpResult.okSessions host (parseScreenSessions out),
        cacheInsert cache host ⟨tB, parseScreenSessions out⟩, true⟩ := by
    rw [getBatchServerStatusM, hfind]
    simp [executeCommandM, hsc0, ExecResult.toOp]
  have hlook : cacheLookup
      (cacheInsert cache host ⟨tB, parseScreenSessions out⟩) sc.host =
      some ⟨tB, parseScreenSessions out⟩ := by
    rw [hhost]
    exact cacheLookup_cacheInsert cache host _
  have hfresh : cacheFresh
      (cacheInsert cache host ⟨tB, parseScreenSessions out⟩) sc.host t = true := by
    rw [cacheFresh, hlook]
    simpa using hdt
  have hr : getServerStatusM cfg
      (cacheInsert cache host ⟨tB, parseScreenSessions out⟩) t oracle2 serverName =
      ⟨Except.ok (OpResult.okStatus
          ((parseScreenSessions out).contains sc.screen_name)),
        cacheInsert cache host ⟨tB, parseScreenSessions out⟩, false⟩ := by
    rw [getServerStatusM, hname]
    simp [hfresh, hlook]
  rw [hb]
  rw [hr]
  exact ⟨rfl, rfl, rfl, rfl⟩

theorem batch_single_coherent_witness :
    (getBatchServerStatusM [("s", ⟨"h", "u", "worker_a", "bash", none, none, none, true, 5000⟩)]
        [] 0 (ExecResult.ok "1234.worker_a\t(Detached)" (some 0) none) "h").result =
        OpResult.okSessions "h" ["worker_a"] ∧
      (getServerStatusM [("s", ⟨"h", "u", "worker_a", "bash", none, none, none, true, 5000⟩)]
        ((getBatchServerStatusM [("s", ⟨"h", "u", "worker_a", "bash", none, none, none, true, 5000⟩)]
          [] 0 (ExecResult.ok "1234.worker_a\t(Detached)" (some 0) none) "h").cache)
        100 ExecResult.down "s").outcome =
        Except.ok (OpResult.okStatus true) := by
  have h := batch_single_coherent
    [("s", ⟨"h", "u", "worker_a", "bash", none, none, none, true, 5000⟩)]
    [] 0 100 "1234.worker_a\t(Detached)" (some 0) none ExecResult.down "h" "s" "s"
    ⟨"h", "u", "worker_a", "bash", none, none, none, true, 5000⟩
    (by decide) (by decide) rfl (by decide)
  refine ⟨?_, ?_⟩
  · rw [h.1]
    decide
  · rw [h.2.2.2]
    decide

/-- C7: whenever `getBatchServerStatus(host)` fails — no registry entry
matches the host, or the transport call fails — the screen-session cache
is returned unchanged and the corresponding negative result is produced
(`{success:false, error}` resp. `{success:false, sshDown:true, host}`). -/
theorem batch_failure_frame (cfg : Config) (cache : Cache) (now : Int)
    (oracle : ExecResult) (host : String)
    (h : findServerByHost cfg host = none ∨ oracle = ExecResult.down) :
    (getBatchServerStatusM cfg cache now oracle host).cache = cache ∧
      (getBatchServerStatusM cfg cache now oracle host).result.success = false ∧
      (getBatchServerStatusM cfg cache now oracle host).result =
        (match findServerByHost cfg host with
          | none => OpResult.cfgError ("No server configured for host " ++ host)
          | some _ => OpResult.downHost host) := by
  cases hf : findServerByHost cfg host with
  | none =>
    rw [getBatchServerStatusM, hf]
    exact ⟨rfl, rfl, rfl⟩
  | some n0 =>
    have ho : oracle = ExecResult.down := by
      rcases h with h | h
      · rw [hf] at h; cases h
      · exact h
    subst ho
    rw [getBatchServerStatusM, hf]
    cases hq : lookupServer cfg n0 with
    | none => simp [executeCommandM, hq, OpResult.success]
    | some sc => simp [executeCommandM, hq, ExecResult.toOp, OpResult.success]

theorem batch_failure_frame_witness :
    (getBatchServerStatusM [("s", ⟨"h", "u", "w", "bash", none, none, none, true, 5000⟩)]
        [("h", ⟨0, ["w"]⟩)] 7 ExecResult.down "h").cache = [("h", ⟨0, ["w"]⟩)] ∧
      (getBatchServerStatusM [("s", ⟨"h", "u", "w", "bash", none, none, none, true, 5000⟩)]
        [("h", ⟨0, ["w"]⟩)] 7 ExecResult.down "h").result = OpResult.downHost "h" := by
  have h := batch_failure_frame
    [("s", ⟨"h", "u", "w", "bash", none, none, none, true, 5000⟩)]
    [("h", ⟨0, ["w"]⟩)] 7 ExecResult.down "h" (Or.inr rfl)
  refine ⟨h.1, ?_⟩
  rw [h.2.2]
  decide

/-!
## Claims about the session-listing parser and the document store
-/

/-- C8: the session-listing parser yields `worker_a` from
`"1234.worker_a\t(Detached)"`, contributes nothing for the header line
`"There are screens on:"`, and in general any line without a
digits-dot-name token is skipped without error. -/
theorem parse_sessions_spec :
    parseScreenSessions "1234.worker_a\t(Detached)" = ["worker_a"] ∧
      parseScreenSessions "There are screens on:" = [] ∧
      ∀ (pre post : List String) (l : String), lineSession l = none →
        (pre ++ l :: post).filterMap lineSession =
          (pre ++ post).filterMap lineSession := by
  refine ⟨by decide, by decide, ?_⟩
  intro pre post l h
  simp [List.filterMap_append, List.filterMap_cons, h]

theorem parse_sessions_spec_witness :
    (["1234.worker_a\t(Detached)"] ++ "There are screens on:" :: ["5678.other"]).filterMap
        lineSession =
      (["1234.worker_a\t(Detached)"] ++ ["5678.other"]).filterMap lineSession :=
  parse_sessions_spec.2.2 ["1234.worker_a\t(Detached)"] ["5678.other"]
    "There are screens on:" (by decide)

/-- C9: for a host with a configured server, when the generated timestamp
key is absent from the document that was read (read failure and parse
failure reading as the empty document), `saveRemoteAflConfig` writes back
a document holding the snapshot under the timestamp key, agreeing with
the read document on every other key, and exactly one entry longer — no
existing key is deleted or overwritten. -/
theorem saveSnapshot_additive {α : Type} (cfg : Config) (host : String)
    (readRes : ReadOutcome α) (ts : String) (cfgObj : α) (sc : ServerConfig)
    (hs : getServerForHostM cfg host = some sc)
    (hts : docLookup (docOf readRes) ts = none) :
    ∃ written, saveRemoteAflConfigM cfg host readRes ts cfgObj = some written ∧
      docLookup written ts = some cfgObj ∧
      (∀ k, k ≠ ts → docLookup written k = docLookup (docOf readRes) k) ∧
      written.length = (docOf readRes).length + 1 ∧
      docOf (ReadOutcome.failure : ReadOutcome α) = [] ∧
      docOf (ReadOutcome.parseError : ReadOutcome α) = [] := by
  have happ : objSet (docOf readRes) ts cfgObj = docOf readRes ++ [(ts, cfgObj)] :=
    objSet_append_of_lookup_none (docOf readRes) ts cfgObj hts
  refine ⟨docOf readRes ++ [(ts, cfgObj)], ?_, ?_, ?_, ?_, rfl, rfl⟩
  · rw [saveRemoteAflConfigM, hs, happ]
  · have hnone : List.find? (fun p => p.1 = ts) (docOf readRes) = none := by
      have := hts
      rw [docLookup, Option.map_eq_none'] at this
      exact this
    rw [docLookup, List.find?_append, hnone]
    simp
  · intro k hk
    have hsec : List.find? (fun p => p.1 = k) [(ts, cfgObj)] = none := by
      have hne : decide (ts = k) = false := by
        simp
        intro hc
        exact absurd hc.symm hk
      simp [List.find?, hne]
    rw [docLookup, List.find?_append, hsec, docLookup]
    cases List.find? (fun p => p.1 = k) (docOf readRes) <;> rfl
  · simp

theorem saveSnapshot_additive_witness :
    ∃ written,
      saveRemoteAflConfigM [("s", ⟨"h", "u", "w", "bash", none, none, none, true, 5000⟩)]
          "h" (ReadOutcome.parsed [("24/01/02 03:04:05.000000", 1)])
          "25/06/07 08:09:10.000000" 2 = some written ∧
        docLookup written "25/06/07 08:09:10.000000" = some 2 ∧
        (∀ k, k ≠ "25/06/07 08:09:10.000000" →
          docLookup written k =
            docLookup (docOf (ReadOutcome.parsed [("24/01/02 03:04:05.000000", 1)])) k) ∧
        written.length =
          (docOf (ReadOutcome.parsed
            ([("24/01/02 03:04:05.000000", 1)] : List (String × Nat)))).length + 1 ∧
        docOf (ReadOutcome.failure : ReadOutcome Nat) = [] ∧
        docOf (ReadOutcome.parseError : ReadOutcome Nat) = [] := by
  have h := saveSnapshot_additive
    [("s", ⟨"h", "u", "w", "bash", none, none, none, true, 5000⟩)]
    "h" (ReadOutcome.parsed [("24/01/02 03:04:05.000000", 1)])
    "25/06/07 08:09:10.000000" 2
    ⟨"h", "u", "w", "bash", none, none, none, true, 5000⟩ (by decide) (by decide)
  exact h

end AFLAndon
